import Mathlib

/-!
Shallow embedding of the session driver in `crates/shell/src/main.rs`.

Strings are modelled as lists of characters (`Str`).  The Interpreter is an
external collaborator and is abstracted as a function `Str → Int` returning an
exit code; the Line Editor's outcomes are the constructors of `ReadEvent`.
-/

namespace ShellSpec

abbrev Str := List Char

/-- The character list of a string literal. -/
def str (s : String) : Str := s.data

/-- ASCII lowercase conversion, as used by Rust's `eq_ignore_ascii_case`. -/
def asciiLowercase (c : Char) : Char :=
  if 'A' ≤ c ∧ c ≤ 'Z' then Char.ofNat (c.toNat + 32) else c

/-- Rust `str::eq_ignore_ascii_case`: equality after ASCII-lowercasing both sides. -/
def eqIgnoreAsciiCase (a b : Str) : Bool :=
  a.map asciiLowercase == b.map asciiLowercase

/-- Rust `str::trim`: drop whitespace from both ends. -/
def trimChars (l : Str) : Str :=
  ((l.dropWhile Char.isWhitespace).reverse.dropWhile Char.isWhitespace).reverse

/-- Whether `pat` occurs as a contiguous substring of `s`. -/
def containsSub : Str → Str → Bool
  | _, [] => true
  | [], _ :: _ => false
  | c :: rest, p :: ps =>
      (p :: ps).isPrefixOf (c :: rest) || containsSub rest (p :: ps)

/-- Fuel-driven worker for `replaceL`; the fuel bounds the number of scan steps,
and `s.length` fuel always suffices because every step consumes at least one
character of `s`. -/
def replaceGo (rep pat : Str) : Nat → Str → Str
  | _, [] => []
  | 0, s => s
  | fuel + 1, c :: rest =>
      if !pat.isEmpty && pat.isPrefixOf (c :: rest) then
        rep ++ replaceGo rep pat fuel ((c :: rest).drop pat.length)
      else
        c :: replaceGo rep pat fuel rest

/-- Rust `str::replace` for a non-empty pattern: replace every non-overlapping
occurrence of `pat` in `s` by `rep`, scanning left to right. -/
def replaceL (s pat rep : Str) : Str :=
  replaceGo rep pat s.length s

/-! ### Prompt rendering (`interactive`, lines 114-146 of `main.rs`) -/

/-- The literal token substituted by the cwd value: `\x7bdisplay_cwd\x7d`. -/
def dcwdTok : Str := str "\x7bdisplay_cwd\x7d"

/-- The literal token substituted by the branch value: `\x7bgit_branch\x7d`. -/
def gbrTok : Str := str "\x7bgit_branch\x7d"

/-- `replace_placeholders` from `main.rs`: replace every occurrence of the
cwd token, then every occurrence of the branch token in the result. -/
def replace_placeholders (ps1 display_cwd git_branch : Str) : Str :=
  replaceL (replaceL ps1 dcwdTok display_cwd) gbrTok git_branch

/-- The symbolic-reference marker stripped by the branch-label computation. -/
def refHeadsPat : Str := str "ref: refs/heads/"

/-- The branch-label computation of `interactive` (lines 114-127): empty when no
git repository is detected; otherwise the ref with the `ref: refs/heads/`
marker stripped when present, else the ref truncated to its first 7 characters
with `...` appended when longer than 7; the result wrapped in parentheses. -/
def branchLabel (gitRepository : Bool) (gitBranch : Str) : Str :=
  if gitRepository then
    let inner :=
      if refHeadsPat.isPrefixOf gitBranch then gitBranch.drop refHeadsPat.length
      else if gitBranch.length > 7 then gitBranch.take 7 ++ str "..."
      else gitBranch
    str "(" ++ inner ++ str ")"
  else []

/-! ### Session bootstrap environment (`init_state`, lines 40-45 of `main.rs`) -/

/-- The environment map built by `init_state`; `HashMap<String, String>` is
modelled as a finite map from names to optional values. -/
abbrev EnvMap := String → Option String

/-- `HashMap::insert`: the key now maps to the new value, other keys unchanged. -/
def insertEnv (env : EnvMap) (k v : String) : EnvMap :=
  fun q => if q = k then some v else env q

/-- The default prompt template inserted by `init_state`. -/
def default_ps1 : String := "\x7bdisplay_cwd\x7d\x7bgit_branch\x7d$ "

/-- `init_state` lines 41-43: collect the inherited process environment into a
map, then insert the default `PS1` into that map. -/
def initEnvVars (inherited : EnvMap) : EnvMap :=
  insertEnv inherited "PS1" default_ps1

/-! ### The interactive loop (`interactive`, lines 100-182 of `main.rs`) -/

/-- An outcome of one `rl.readline` call: a line of input, an interrupt signal,
an end-of-input signal, or any other editor failure. -/
inductive ReadEvent where
  | line (text : Str)
  | interrupted
  | eof
  | err
deriving DecidableEq

/-- The observable driver state carried through the loop: the in-memory
history, the lines forwarded to the Interpreter's `execute` (with their order),
and the session's last command exit code. -/
structure LoopState where
  history : List Str
  execCalls : List Str
  lastExitCode : Int
deriving DecidableEq

/-- The `history_ignore_space(true)` setting of the editor config (line 68). -/
def history_ignore_space : Bool := true

/-- Modelled from the Line Editor collaborator (rustyline `History::add`, under
the configuration built at lines 67-70): an entry whose first character is
whitespace is ignored when `history_ignore_space` is set (an empty entry is
always ignored), and an entry equal to the last stored entry is ignored. -/
def addHistoryEntry (hist : List Str) (l : Str) : List Str :=
  if history_ignore_space && ((l.head?.map Char.isWhitespace).getD true) then hist
  else if hist.getLast? == some l then hist
  else hist ++ [l]

/-- Line 163: `line.trim().eq_ignore_ascii_case("exit")`. -/
def isExitLine (l : Str) : Bool :=
  eqIgnoreAsciiCase (trimChars l) (str "exit")

/-- One iteration of the interactive loop (lines 151-181), abstracting the
Interpreter as `exec`.  Returns the successor state and `true` when the loop
continues (`false` on `break`).  On a received line: the line is added to
history, forwarded to `execute` with no filename, the exit code recorded, and
the loop breaks exactly when the trimmed line case-insensitively equals
`exit`.  An interrupt continues the loop; end-of-input and any other editor
error break it. -/
def loopStep (exec : Str → Int) (st : LoopState) (e : ReadEvent) : LoopState × Bool :=
  match e with
  | .line l =>
      let st' : LoopState :=
        { history := addHistoryEntry st.history l
          execCalls := st.execCalls ++ [l]
          lastExitCode := exec l }
      if isExitLine l then (st', false) else (st', true)
  | .interrupted => (st, true)
  | .eof => (st, false)
  | .err => (st, false)

/-- Run the loop over a finite schedule of editor outcomes.  The second
component is `true` when the loop terminated (reached a `break`) within the
schedule, `false` when the schedule ran out with the loop still going. -/
def runLoop (exec : Str → Int) : LoopState → List ReadEvent → LoopState × Bool
  | st, [] => (st, false)
  | st, e :: es =>
      let (st', cont) := loopStep exec st e
      if cont then runLoop exec st' es else (st', true)

/-- The loop state at interactive-mode entry: the history file's contents when
the file exists (lines 93-97), the empty log when it does not. -/
def initLoopState (histFile : Option (List Str)) : LoopState :=
  { history := histFile.getD [], execCalls := [], lastExitCode := 0 }

/-- `rl.save_history` with its miette context (lines 183-185): on success the
file is overwritten with exactly the in-memory history; an I/O failure is
surfaced as a contextualized error. -/
def saveHistory (writeOk : Bool) (hist : List Str) : Except String (List Str) :=
  if writeOk then .ok hist else .error "Failed to write the command history"

/-- The interactive session end-to-end: load history, run the loop, and — when
the loop terminates within the schedule — flush the in-memory history once.
`none` means the schedule ended with the loop still running (no flush yet). -/
def interactiveModel (exec : Str → Int) (histFile : Option (List Str))
    (events : List ReadEvent) (writeOk : Bool) : Option (Except String (List Str)) :=
  let run := runLoop exec (initLoopState histFile) events
  if run.2 then some (saveHistory writeOk run.1.history) else none

/-! ### Mode dispatch (`main` and `get_script_content`, lines 190-234) -/

/-- The command-line options of `main.rs` (struct `Options`). -/
structure Opts where
  file : Option Str
  interact : Bool
  norc : Bool
  command : Option Str
  debug : Bool

/-- An Interpreter invocation observable during a process run: either a call of
the execution path (`execute`, with source text and optional filename) or a
call of the parse-only inspection path (`debug_parse`). -/
inductive Action where
  | exec (source_text : Str) (filename : Option Str)
  | debug_parse (source_text : Str)
deriving DecidableEq

/-- `Action.exec` recognizer, for counting execution-path calls in a trace. -/
def Action.isExec : Action → Bool
  | .exec _ _ => true
  | .debug_parse _ => false

/-- The number of execution-path Interpreter calls in a trace. -/
def countExec (l : List Action) : Nat :=
  (l.filter Action.isExec).length

/-- The action trace of a run, or `[]` when the run failed before producing one. -/
def traceOf (r : Except String (List Action)) : List Action :=
  match r with
  | .ok l => l
  | .error _ => []

/-- The `source` command synthesized by `init_state` (line 51): the word
`source` followed by the rc path in single quotes. -/
def shellrcSourceLine (home : Str) : Str :=
  str "source \x27" ++ home ++ str "/.shellrc\x27"

/-- The fixed rc-file path `~/.shellrc` (line 49). -/
def shellrcPath (home : Str) : Str := home ++ str "/.shellrc"

/-- The Interpreter calls made by `init_state` (lines 47-61): when a home
directory exists, the rc file exists and `norc` is not set, one execution-path
call sourcing `~/.shellrc`; otherwise none. -/
def init_state_trace (home : Option Str) (rcExists norc : Bool) : List Action :=
  match home with
  | some h =>
      if !norc && rcExists then
        [Action.exec (shellrcSourceLine h) (some (shellrcPath h))]
      else []
  | none => []

/-- `get_script_content` (lines 220-234): a given file path wins over an inline
command; reading a missing file is a contextualized error; an inline command
carries no filename.  `readFile` models `std::fs::read_to_string`. -/
def get_script_content (readFile : Str → Option Str)
    (file : Option Str) (command : Option Str) : Except String (Str × Option Str) :=
  match file, command with
  | some path, _ =>
      match readFile path with
      | some content => .ok (content, some path)
      | none => .error "Failed to read script file"
  | none, some cmd => .ok (cmd, none)
  | none, none => .error "unreachable"

/-- The Interpreter-call trace of `main` (lines 190-218).  `main` first runs
`init_state`; with neither file nor command it calls `interactive(None, ..)`,
which — receiving no state — runs `init_state` again and then the loop; with a
file or command it resolves the script text, routes it to `debug_parse` and
returns when the debug flag is set, and otherwise executes it (then runs the
loop when the `interact` flag is set). -/
def mainTrace (opts : Opts) (home : Option Str) (rcExists : Bool)
    (readFile : Str → Option Str) (exec : Str → Int) (events : List ReadEvent) :
    Except String (List Action) :=
  let bootTrace := init_state_trace home rcExists opts.norc
  match opts.file, opts.command with
  | none, none =>
      let rerunBoot := init_state_trace home rcExists opts.norc
      let run := runLoop exec (initLoopState none) events
      .ok (bootTrace ++ rerunBoot ++ run.1.execCalls.map (fun l => Action.exec l none))
  | f, c =>
      match get_script_content readFile f c with
      | .error e => .error e
      | .ok (text, filename) =>
          if opts.debug then .ok (bootTrace ++ [Action.debug_parse text])
          else
            let interactTrace :=
              if opts.interact then
                (runLoop exec (initLoopState none) events).1.execCalls.map
                  (fun l => Action.exec l none)
              else []
            .ok (bootTrace ++ [Action.exec text filename] ++ interactTrace)

/-! ### Concrete inputs used by witnesses and counterexamples -/

/-- An inherited environment setting `PS1` to a custom template. -/
def c2InheritedEnv : EnvMap :=
  fun q => if q = "PS1" then some "custom$ " else none

/-- A 40-character commit hash with no `ref:` marker. -/
def c8Hash : Str := str "0123456789abcdef0123456789abcdef01234567"

/-- A template in which substituting the branch token splices together a cwd
token: `\x7bdisplay_\x7bgit_branch\x7dcwd\x7d`. -/
def c9Template : Str := str "\x7bdisplay_\x7bgit_branch\x7dcwd\x7d"

/-- A debug invocation with an inline command and rc sourcing suppressed. -/
def c1wOpts : Opts :=
  { file := none, interact := false, norc := true, command := some (str "echo hi"), debug := true }

/-- A debug invocation with an inline command and rc sourcing not suppressed. -/
def c1cOpts : Opts :=
  { file := none, interact := false, norc := false, command := some (str "echo hi"), debug := true }

/-- A pure interactive invocation: no file, no command, rc not suppressed. -/
def c3Opts : Opts :=
  { file := none, interact := false, norc := false, command := none, debug := false }

/-! ### Helper lemmas -/

theorem isPrefixOf_append_self (p t : Str) : p.isPrefixOf (p ++ t) = true := by
  induction p with
  | nil => simp [List.isPrefixOf]
  | cons a as ih => simp [List.isPrefixOf, ih]

theorem drop_length_append (p t : Str) : (p ++ t).drop p.length = t := by
  induction p with
  | nil => rfl
  | cons a as ih => simp [ih]

theorem replaceGo_of_not_contains (rep pat : Str) :
    ∀ (fuel : Nat) (s : Str), containsSub s pat = false → replaceGo rep pat fuel s = s := by
  intro fuel
  induction fuel with
  | zero => intro s _; cases s <;> rfl
  | succ n ih =>
    intro s h
    cases s with
    | nil => rfl
    | cons c rest =>
      cases pat with
      | nil => simp [containsSub] at h
      | cons p ps =>
        have h1 : (p :: ps).isPrefixOf (c :: rest) = false ∧
            containsSub rest (p :: ps) = false := by
          simpa [containsSub, Bool.or_eq_false_iff] using h
        simp [replaceGo, h1.1, ih rest h1.2]

theorem replaceL_of_not_contains (s pat rep : Str) (h : containsSub s pat = false) :
    replaceL s pat rep = s :=
  replaceGo_of_not_contains rep pat s.length s h

theorem replace_placeholders_id (t d g : Str)
    (h1 : containsSub t dcwdTok = false) (h2 : containsSub t gbrTok = false) :
    replace_placeholders t d g = t := by
  unfold replace_placeholders
  rw [replaceL_of_not_contains t dcwdTok d h1, replaceL_of_not_contains t gbrTok g h2]

theorem mem_addHistoryEntry {hist : List Str} {l x : Str}
    (hx : x ∈ addHistoryEntry hist l) :
    x ∈ hist ∨ (x = l ∧ (l.head?.map Char.isWhitespace).getD true = false) := by
  unfold addHistoryEntry at hx
  split at hx
  · exact Or.inl hx
  next h1 =>
    split at hx
    · exact Or.inl hx
    · rcases List.mem_append.1 hx with h | h
      · exact Or.inl h
      · refine Or.inr ⟨by simpa using h, ?_⟩
        simpa [history_ignore_space] using h1

theorem runLoop_history_mem (exec : Str → Int) :
    ∀ (events : List ReadEvent) (st : LoopState) (x : Str),
      x ∈ (runLoop exec st events).1.history →
      x ∈ st.history ∨ (x.head?.map Char.isWhitespace).getD true = false := by
  intro events
  induction events with
  | nil => intro st x hx; exact Or.inl hx
  | cons e es ih =>
    intro st x hx
    cases e with
    | line l =>
      by_cases hex : isExitLine l = true
      · have hx' : x ∈ addHistoryEntry st.history l := by
          simpa [runLoop, loopStep, hex] using hx
        rcases mem_addHistoryEntry hx' with h | ⟨rfl, hc⟩
        · exact Or.inl h
        · exact Or.inr hc
      · have hx' : x ∈ (runLoop exec
            ⟨addHistoryEntry st.history l, st.execCalls ++ [l], exec l⟩ es).1.history := by
          simpa [runLoop, loopStep, hex] using hx
        rcases ih _ x hx' with h | h
        · rcases mem_addHistoryEntry h with h' | ⟨rfl, hc⟩
          · exact Or.inl h'
          · exact Or.inr hc
        · exact Or.inr h
    | interrupted =>
      exact ih st x (by simpa [runLoop, loopStep] using hx)
    | eof => exact Or.inl (by simpa [runLoop, loopStep] using hx)
    | err => exact Or.inl (by simpa [runLoop, loopStep] using hx)

theorem init_state_trace_norc (home : Option Str) (rcExists : Bool) :
    init_state_trace home rcExists true = [] := by
  cases home <;> simp [init_state_trace]

/-! ### Claim theorems -/

/-- Claim C1 (amended): in a debug-mode invocation carrying a script file or an
inline command, the script text is routed only to the parse-only path and is
never executed — the run's whole Interpreter trace is the bootstrap rc-sourcing
trace followed by the single parse action, with nothing after it; with rc
sourcing suppressed, no execution-path call occurs at all. -/
theorem C1_debug_mode (opts : Opts) (home : Option Str) (rcExists : Bool)
    (readFile : Str → Option Str) (exec : Str → Int) (events : List ReadEvent)
    (text : Str) (filename : Option Str)
    (hdbg : opts.debug = true)
    (hget : get_script_content readFile opts.file opts.command = .ok (text, filename)) :
    mainTrace opts home rcExists readFile exec events =
      .ok (init_state_trace home rcExists opts.norc ++ [Action.debug_parse text]) ∧
    (opts.norc = true →
      mainTrace opts home rcExists readFile exec events = .ok [Action.debug_parse text]) := by
  obtain ⟨f, it, nr, c, dbg⟩ := opts
  simp only at hdbg hget ⊢
  subst hdbg
  cases f with
  | none =>
    cases c with
    | none => simp [get_script_content] at hget
    | some cmd =>
      refine ⟨by simp [mainTrace, hget], fun hnr => ?_⟩
      subst hnr
      simp [mainTrace, hget, init_state_trace_norc]
  | some path =>
    cases c with
    | none =>
      refine ⟨by simp [mainTrace, hget], fun hnr => ?_⟩
      subst hnr
      simp [mainTrace, hget, init_state_trace_norc]
    | some cmd =>
      refine ⟨by simp [mainTrace, hget], fun hnr => ?_⟩
      subst hnr
      simp [mainTrace, hget, init_state_trace_norc]

/-- Claim C1 witness: the suppressed-rc debug run's whole trace is the single
parse action on `echo hi`. -/
theorem C1_witness :
    mainTrace c1wOpts (some (str "/home/user")) true (fun _ => none) (fun _ => (0 : Int)) [] =
      .ok [Action.debug_parse (str "echo hi")] :=
  (C1_debug_mode c1wOpts (some (str "/home/user")) true (fun _ => none) (fun _ => (0 : Int)) []
      (str "echo hi") none rfl rfl).2 rfl

/-- Claim C1 counterexample: a debug invocation (inline command, rc sourcing
not suppressed, `~/.shellrc` present) performs one execution-path Interpreter
call — the rc sourcing in `init_state` — so the execution path is invoked
during the run. -/
theorem C1_counterexample :
    c1cOpts.debug = true ∧
    countExec (traceOf (mainTrace c1cOpts (some (str "/home/u")) true (fun _ => none)
      (fun _ => (0 : Int)) [])) = 1 :=
  ⟨rfl, rfl⟩

/-- Claim C2 (amended): session bootstrap always sets `PS1` to the default
template, overriding any inherited `PS1`: looking up `PS1` in the bootstrapped
environment yields the default for every inherited environment. -/
theorem C2_ps1_default_overrides (inherited : EnvMap) :
    initEnvVars inherited "PS1" = some default_ps1 := by
  simp [initEnvVars, insertEnv]

/-- Claim C2 counterexample: with an inherited environment whose `PS1` is
`custom$ `, the bootstrapped Session's `PS1` is the default template, not the
inherited value. -/
theorem C2_counterexample :
    initEnvVars c2InheritedEnv "PS1" ≠ some "custom$ " ∧
    initEnvVars c2InheritedEnv "PS1" = some default_ps1 := by
  constructor
  · intro h
    simp [initEnvVars, insertEnv, default_ps1] at h
  · simp [initEnvVars, insertEnv]

/-- Claim C3 (code bug): in a pure interactive run with `~/.shellrc` present
and rc sourcing not suppressed, the rc file is sourced through the Interpreter
twice — once by the `init_state` call in `main` and once more by the
`init_state` call inside `interactive`, which is handed no session state. -/
theorem C3_rc_sourced_twice :
    countExec (traceOf (mainTrace c3Opts (some (str "/home/u")) true (fun _ => none)
      (fun _ => (0 : Int)) [])) = 2 ∧
    traceOf (mainTrace c3Opts (some (str "/home/u")) true (fun _ => none)
      (fun _ => (0 : Int)) []) =
      [Action.exec (shellrcSourceLine (str "/home/u")) (some (shellrcPath (str "/home/u"))),
       Action.exec (shellrcSourceLine (str "/home/u")) (some (shellrcPath (str "/home/u")))] :=
  ⟨rfl, rfl⟩

/-- Claim C4: a received line whose trimmed text case-insensitively equals
`exit` always makes the loop break, for every Interpreter `exec` (hence
regardless of the exit code returned for that line) and every loop state. -/
theorem C4_exit_terminates (exec : Str → Int) (st : LoopState) (l : Str)
    (h : isExitLine l = true) :
    (loopStep exec st (.line l)).2 = false := by
  simp [loopStep, h]

/-- Claim C4 witness: the line `  EXIT ` breaks the loop even when the
Interpreter returns exit code 7 for it. -/
theorem C4_witness :
    (loopStep (fun _ => (7 : Int)) ⟨[], [], 0⟩ (.line (str "  EXIT "))).2 = false :=
  C4_exit_terminates (fun _ => (7 : Int)) ⟨[], [], 0⟩ (str "  EXIT ") (by decide)

/-- Claim C5: an interrupt signal never terminates the loop (the state is kept
and the next iteration reads again), and an end-of-input signal always
terminates it. -/
theorem C5_interrupt_vs_eof (exec : Str → Int) (st : LoopState) :
    loopStep exec st .interrupted = (st, true) ∧ (loopStep exec st .eof).2 = false :=
  ⟨rfl, rfl⟩

/-- Claim C6 (amended): every received input line — the empty line included —
is forwarded to the Interpreter for execution. -/
theorem C6_every_line_executed (exec : Str → Int) (st : LoopState) (l : Str) :
    (loopStep exec st (.line l)).1.execCalls = st.execCalls ++ [l] := by
  by_cases h : isExitLine l = true <;> simp [loopStep, h]

/-- Claim C6 counterexample: submitting the empty line invokes the Interpreter
on it — the forwarded-call list gains the empty line. -/
theorem C6_counterexample :
    (loopStep (fun _ => (0 : Int)) ⟨[], [], 0⟩ (.line (str ""))).1.execCalls = [str ""] := by
  decide

/-- Claim C7: the history file's contents become the in-memory log exactly when
the file exists and a missing file yields the empty log; a run whose loop
terminates flushes the in-memory history exactly once, and the flush overwrites
the file with exactly that history on success and surfaces a contextualized
error on an I/O failure. -/
theorem C7_history_lifecycle :
    (∀ contents : List Str, (initLoopState (some contents)).history = contents) ∧
    ((initLoopState none).history = []) ∧
    (∀ (exec : Str → Int) (histFile : Option (List Str)) (events : List ReadEvent)
       (writeOk : Bool),
       (runLoop exec (initLoopState histFile) events).2 = true →
       interactiveModel exec histFile events writeOk =
         some (saveHistory writeOk (runLoop exec (initLoopState histFile) events).1.history)) ∧
    (∀ hist : List Str, saveHistory true hist = .ok hist) ∧
    (∀ hist : List Str,
       saveHistory false hist = .error "Failed to write the command history") := by
  refine ⟨fun _ => rfl, rfl, ?_, fun _ => rfl, fun _ => rfl⟩
  intro exec histFile events writeOk h
  simp [interactiveModel, h]

/-- Claim C7 witness: a session with no history file whose schedule is a single
end-of-input terminates and overwrites the history file with the empty log. -/
theorem C7_witness :
    interactiveModel (fun _ => (0 : Int)) none [ReadEvent.eof] true = some (Except.ok []) := by
  have h := C7_history_lifecycle.2.2.1 (fun _ => (0 : Int)) none [ReadEvent.eof] true (by decide)
  rw [h]
  rfl

/-- Claim C8: the branch label is `(name)` for a ref of the form
`ref: refs/heads/name`; for any other ref longer than 7 characters it is the
first 7 characters followed by `...`, in parentheses; for any other ref of at
most 7 characters it is the ref in parentheses; with no repository detected it
is empty. -/
theorem C8_branch_label :
    (∀ name : Str, branchLabel true (refHeadsPat ++ name) = str "(" ++ name ++ str ")") ∧
    (∀ ref : Str, refHeadsPat.isPrefixOf ref = false → 7 < ref.length →
        branchLabel true ref = str "(" ++ (ref.take 7 ++ str "...") ++ str ")") ∧
    (∀ ref : Str, refHeadsPat.isPrefixOf ref = false → ref.length ≤ 7 →
        branchLabel true ref = str "(" ++ ref ++ str ")") ∧
    (∀ ref : Str, branchLabel false ref = []) := by
  refine ⟨?_, ?_, ?_, ?_⟩
  · intro name
    have hp := isPrefixOf_append_self refHeadsPat name
    simp [branchLabel, hp, drop_length_append]
  · intro ref h1 h2
    simp [branchLabel, h1, h2]
  · intro ref h1 h2
    have h2' : ¬ (7 < ref.length) := by omega
    simp [branchLabel, h1, h2']
  · intro ref
    simp [branchLabel]

/-- Claim C8 witness: `ref: refs/heads/main` labels as `(main)`, and the
40-character hash labels as its first 7 characters plus `...`, in
parentheses. -/
theorem C8_witness :
    branchLabel true (refHeadsPat ++ str "main") = str "(" ++ str "main" ++ str ")" ∧
    branchLabel true c8Hash = str "(" ++ (c8Hash.take 7 ++ str "...") ++ str ")" :=
  ⟨C8_branch_label.1 (str "main"),
   C8_branch_label.2.1 c8Hash (by decide) (by decide)⟩

/-- Claim C9 (amended): substitution leaves a template containing neither
literal token verbatim, and applying the substitution to its own output yields
the same string whenever that output contains neither literal token.  (Freedom
of the values alone does not suffice: substitution can splice a token together
from template fragments, see the counterexample.) -/
theorem C9_replace_idempotent (ps1 d g : Str) :
    (containsSub ps1 dcwdTok = false → containsSub ps1 gbrTok = false →
      replace_placeholders ps1 d g = ps1) ∧
    (containsSub (replace_placeholders ps1 d g) dcwdTok = false →
      containsSub (replace_placeholders ps1 d g) gbrTok = false →
      replace_placeholders (replace_placeholders ps1 d g) d g =
        replace_placeholders ps1 d g) :=
  ⟨replace_placeholders_id ps1 d g,
   fun h1 h2 => replace_placeholders_id _ d g h1 h2⟩

/-- Claim C9 witness: a template free of both tokens is left verbatim, and on
it the substitution is idempotent. -/
theorem C9_witness :
    replace_placeholders (str "a$ ") (str "X") (str "Y") = str "a$ " :=
  (C9_replace_idempotent (str "a$ ") (str "X") (str "Y")).1 (by decide) (by decide)

/-- Claim C9 counterexample: with values `X` and the empty string — neither
containing any placeholder-like substring — substitution on `c9Template` is not
idempotent: the first pass yields the literal cwd token, which the second pass
then replaces. -/
theorem C9_counterexample :
    containsSub (str "X") dcwdTok = false ∧ containsSub (str "X") gbrTok = false ∧
    containsSub (str "") dcwdTok = false ∧ containsSub (str "") gbrTok = false ∧
    replace_placeholders (replace_placeholders c9Template (str "X") (str "")) (str "X") (str "") ≠
      replace_placeholders c9Template (str "X") (str "") := by
  decide

/-- Claim C10: a submitted line whose first character is a space is not added
to the in-memory history but is still forwarded to the Interpreter; and every
entry of the history after any run either was present at entry or does not
start with a space — so a space-prefixed line absent initially is absent from
the history persisted at exit. -/
theorem C10_ignore_space (exec : Str → Int) (st : LoopState) :
    (∀ l : Str, l.head? = some ' ' →
       (loopStep exec st (.line l)).1.history = st.history ∧
       (loopStep exec st (.line l)).1.execCalls = st.execCalls ++ [l]) ∧
    (∀ (events : List ReadEvent) (x : Str),
       x ∈ (runLoop exec st events).1.history →
       x ∈ st.history ∨ x.head? ≠ some ' ') := by
  constructor
  · intro l h
    have hws : (l.head?.map Char.isWhitespace).getD true = true := by
      rw [h]; decide
    constructor <;> by_cases hex : isExitLine l = true <;>
      simp [loopStep, addHistoryEntry, history_ignore_space, hws, hex]
  · intro events x hx
    rcases runLoop_history_mem exec events st x hx with h | h
    · exact Or.inl h
    · refine Or.inr fun hc => ?_
      rw [hc] at h
      exact absurd h (by decide)

/-- Claim C10 witness: submitting ` ls` from an empty history leaves the
history empty yet forwards ` ls` to the Interpreter, and after a run that
submits ` ls` the preloaded entry `x` is accounted for by the run invariant. -/
theorem C10_witness :
    ((loopStep (fun _ => (0 : Int)) ⟨[], [], 0⟩ (.line (str " ls"))).1.history = [] ∧
     (loopStep (fun _ => (0 : Int)) ⟨[], [], 0⟩ (.line (str " ls"))).1.execCalls = [str " ls"]) ∧
    (str "x" ∈ [str "x"] ∨ (str "x").head? ≠ some ' ') :=
  ⟨(C10_ignore_space (fun _ => (0 : Int)) ⟨[], [], 0⟩).1 (str " ls") (by decide),
   (C10_ignore_space (fun _ => (0 : Int)) ⟨[str "x"], [], 0⟩).2
     [.line (str " ls"), .eof] (str "x") (by decide)⟩

end ShellSpec
